import Mathlib

set_option autoImplicit false
set_option maxRecDepth 4000

/-!
Shallow embedding of the distributed-transformer data conversion engine
(Rust sources under `rs_app/src`), used to check the natural-language
specification against the code.  Pure functions of the source are
translated into Lean functions; the two `FormatStream` pollers are
modelled as recursive functions from the list of stream items to the
list of emitted items.  External library calls (the `csv` crate parse,
the arrow CSV/parquet writers, the object-store SDKs) are modelled at
the level of the values they exchange with the repository's code.
-/

namespace DistT

/-! ## Columnar data model (arrow types as used by the repository) -/

/-- Logical column types used by the code (`DataType` in arrow). -/
inductive DataType where
  | int64
  | float64
  | utf8
  | boolean
  deriving DecidableEq, Repr

/-- A schema field: name, logical type, nullability flag. -/
structure Field where
  name : String
  dataType : DataType
  nullable : Bool
  deriving DecidableEq, Repr

/-- A schema is an ordered list of fields. -/
abbrev Schema := List Field

/-- A cell value inside a record batch. -/
inductive Value where
  | vInt (i : Int)
  | vStr (s : String)
  | vBool (b : Bool)
  | vNull
  deriving DecidableEq, Repr

/-- A row of a record batch. -/
abbrev Row := List Value

/-- A record batch: a schema plus its rows (row-major view of the
arrow columns; each row has one value per field). -/
structure RecordBatch where
  schema : Schema
  rows : List Row
  deriving DecidableEq, Repr

/-- Number of rows of a batch (`RecordBatch::num_rows`). -/
def RecordBatch.numRows (b : RecordBatch) : Nat := b.rows.length

/-- The empty batch over a schema (`RecordBatch::new_empty`). -/
def RecordBatch.newEmpty (s : Schema) : RecordBatch := ⟨s, []⟩

/-- Projection of a batch by column indices (`RecordBatch::project` /
the manual `try_new` projection in `execution.rs`): fails when an
index is out of range, otherwise keeps the selected columns in the
given order. -/
def projectBatch (b : RecordBatch) (idx : List Nat) : Except String RecordBatch :=
  if idx.all (fun i => i < b.schema.length) then
    Except.ok ⟨idx.filterMap (fun i => b.schema.get? i),
               b.rows.map (fun r => idx.filterMap (fun i => r.get? i))⟩
  else
    Except.error ("Error projecting batch")

/-- Row filter by a boolean mask (`arrow::compute::filter_record_batch`):
rows are kept where the mask is `some true`; a null mask entry drops
the row. -/
def filterBatchRows (b : RecordBatch) (mask : List (Option Bool)) : RecordBatch :=
  ⟨b.schema, ((b.rows.zip mask).filterMap
      (fun p => if p.2 = some true then some p.1 else none))⟩

/-! ## Rust standard-library numeric parsing

The CSV type-inference calls `str::parse::<i64>()` and
`str::parse::<f64>()` and only uses whether parsing succeeds.  The two
recognisers below follow the Rust grammars: `i64` is an optional sign
followed by a non-empty digit string within the 64-bit signed range;
`f64` accepts an optional sign followed by `inf`, `infinity`, `nan`
(case-insensitively) or a decimal mantissa with at least one digit and
an optional exponent (overflow still parses successfully). -/

/-- Digits of a character list interpreted in base 10. -/
def digitsToNat : List Char → Nat → Nat
  | [], acc => acc
  | c :: cs, acc => digitsToNat cs (acc * 10 + (c.toNat - '0'.toNat))

/-- Model of Rust `i64::from_str`, returning the parsed value. -/
def parseI64 (s : String) : Option Int :=
  let p : Bool × List Char :=
    match s.toList with
    | '+' :: t => (false, t)
    | '-' :: t => (true, t)
    | t => (false, t)
  if p.2.isEmpty then none
  else if p.2.all Char.isDigit then
    let n := digitsToNat p.2 0
    if p.1 then
      if n ≤ 2 ^ 63 then some (-(n : Int)) else none
    else
      if n ≤ 2 ^ 63 - 1 then some (n : Int) else none
  else none

/-- Success of Rust `i64::from_str`. -/
def parseI64ok (s : String) : Bool := (parseI64 s).isSome

/-- Mantissa check of the Rust float grammar: only digits and at most
one dot, with at least one digit. -/
def mantissaOk (cs : List Char) : Bool :=
  cs.all (fun c => c.isDigit || c = '.') && cs.count '.' ≤ 1 && cs.any Char.isDigit

/-- Exponent check of the Rust float grammar: optional sign then a
non-empty digit string. -/
def exponentOk (cs : List Char) : Bool :=
  match cs with
  | '+' :: t => !t.isEmpty && t.all Char.isDigit
  | '-' :: t => !t.isEmpty && t.all Char.isDigit
  | t => !t.isEmpty && t.all Char.isDigit

/-- Success of Rust `f64::from_str` (a pure grammar check: overflow and
underflow still return `Ok`). -/
def parseF64ok (s : String) : Bool :=
  let body : List Char :=
    match s.toList with
    | '+' :: t => t
    | '-' :: t => t
    | t => t
  let lower := body.map Char.toLower
  if lower = "inf".toList || lower = "infinity".toList || lower = "nan".toList then
    true
  else
    let mant := body.takeWhile (fun c => c ≠ 'e' && c ≠ 'E')
    let rest := body.dropWhile (fun c => c ≠ 'e' && c ≠ 'E')
    match rest with
    | [] => mantissaOk mant
    | _ :: expPart => mantissaOk mant && exponentOk expPart

/-! ## CSV format (`formats/csv_format.rs`) -/

/-- Configuration state of `CsvFormat`. -/
structure CsvFormat where
  schema : Option Schema
  hasHeader : Bool
  batchSize : Nat
  sampleSize : Nat
  deriving DecidableEq, Repr

/-- Constructor `CsvFormat::new`. -/
def CsvFormat.new (hasHeader : Bool) (batchSize : Nat) : CsvFormat :=
  ⟨none, hasHeader, batchSize, 1000⟩

/-- Constructor `CsvFormat::with_schema`. -/
def CsvFormat.withSchema (s : Schema) (hasHeader : Bool) (batchSize : Nat) : CsvFormat :=
  ⟨some s, hasHeader, batchSize, 1000⟩

/-- State of the `infer_field_type` scan over one column's sampled
values: (`has_int`, `has_float`, `all_empty`).  The loop skips empty
values, clears the flags on parse failures and exits early once both
numeric flags are false. -/
def inferLoop : List String → Bool → Bool → Bool → Bool × Bool × Bool
  | [], hi, hf, ae => (hi, hf, ae)
  | v :: rest, hi, hf, ae =>
    if v.isEmpty then inferLoop rest hi hf ae
    else
      let hi' := hi && parseI64ok v
      let hf' := hf && parseF64ok v
      if !hi' && !hf' then (hi', hf', false)
      else inferLoop rest hi' hf' false

/-- `CsvFormat::infer_field_type`: reduce a column's sampled values to
a logical type. -/
def inferFieldType (values : List String) : DataType :=
  let st := inferLoop values true true true
  if st.2.2 then DataType.utf8
  else if st.1 then DataType.int64
  else if st.2.1 then DataType.float64
  else DataType.utf8

/-- Specification-side restatement of the type-narrowing rule, written
from the spec's words: integer when every non-empty sampled value
parses as a signed 64-bit integer, else float when every non-empty
value parses as a 64-bit float, else string; all-empty columns are
string. -/
def specInferFieldType (values : List String) : DataType :=
  let nonEmpty := values.filter (fun v => !v.isEmpty)
  if nonEmpty.isEmpty then DataType.utf8
  else if nonEmpty.all parseI64ok then DataType.int64
  else if nonEmpty.all parseF64ok then DataType.float64
  else DataType.utf8

/-- The sampling loop of `infer_schema`: records are consumed in order
and the loop breaks once the running row count has reached the sample
size (the count is checked after each record is pushed). -/
def takeSample {α : Type} (sampleSize : Nat) : Nat → List α → List α
  | _, [] => []
  | count, r :: rest =>
    r :: (if count + 1 ≥ sampleSize then [] else takeSample sampleSize (count + 1) rest)

/-- Column collection of `infer_schema`: the column count is fixed by
the first record with a positive field count (the `columns.is_empty()`
re-initialisation), each record contributes its fields at indices
below the column count. -/
def collectColumns (records : List (List String)) : List (List String) :=
  match records.dropWhile (fun r => r.isEmpty) with
  | [] => []
  | r0 :: _ =>
    (List.range r0.length).map (fun j => records.filterMap (fun r => r.get? j))

/-- `CsvFormat::infer_schema`, embedded over the record rows produced
by the `csv` crate reader (with `has_headers` set from the format, the
first row is the header row and is excluded from `records()`).  A
declared schema short-circuits the inference. -/
def CsvFormat.inferSchema (fmt : CsvFormat) (rows : List (List String)) : Schema :=
  match fmt.schema with
  | some s => s
  | none =>
    let headers := if fmt.hasHeader then (rows.head?.getD []) else []
    let records := if fmt.hasHeader then rows.tail else rows
    let sampled := takeSample fmt.sampleSize 0 records
    let columns := collectColumns sampled
    columns.enum.map (fun p =>
      let name :=
        if fmt.hasHeader && decide (p.1 < headers.length) then headers.getD p.1 ""
        else "column_" ++ toString p.1
      Field.mk name (inferFieldType p.2) true)

/-! ## Parquet configuration (`config.rs`) and format -/

/-- The `ParquetConfig` settings record. -/
structure ParquetConfig where
  batchSize : Nat
  useStatistics : Bool
  rowGroupSize : Nat
  compression : String
  pageSize : Nat
  dictionaryPageSize : Nat
  deriving DecidableEq, Repr

/-- The parquet defaults from `Config::default`. -/
def parquetDefaultConfig : ParquetConfig :=
  ⟨1024, true, 128 * 1024 * 1024, "snappy", 1024 * 1024, 2 * 1024 * 1024⟩

/-- Compression codecs of the parquet writer. -/
inductive CompressionCodec where
  | uncompressedC
  | snappyC
  | gzipC
  | brotliC
  | lz4C
  | zstdC
  deriving DecidableEq, Repr

/-- The writer's compression selection in `ParquetFormat::write_batches`:
the `match` maps the five named codecs and sends every other string to
uncompressed. -/
def compressionOf (s : String) : CompressionCodec :=
  if s = "snappy" then CompressionCodec.snappyC
  else if s = "gzip" then CompressionCodec.gzipC
  else if s = "brotli" then CompressionCodec.brotliC
  else if s = "lz4" then CompressionCodec.lz4C
  else if s = "zstd" then CompressionCodec.zstdC
  else CompressionCodec.uncompressedC

/-! ## Format registry (`formats/mod.rs`) -/

/-- A registered format value (`Box<dyn DataFormat>`): one of the two
built-ins or a third-party codec tagged by an identifier. -/
inductive DataFormatV where
  | csvF (fmt : CsvFormat)
  | parquetF (cfg : ParquetConfig)
  | pluginF (tag : Nat)
  deriving DecidableEq, Repr

/-- The built-in CSV codec the registry installs (`CsvFormat::default()`;
the source derives no explicit `Default`, the configuration defaults of
`config.rs` give header handling on and batch size 1024). -/
def csvDefaultFormat : CsvFormat := CsvFormat.new true 1024

/-- The registry map from format name to registered codec
(`FormatRegistry.formats`, a `HashMap` modelled as an association
list without duplicate keys). -/
abbrev FormatRegistry := List (String × DataFormatV)

/-- `FormatRegistry::new`: installs the two built-in entries. -/
def FormatRegistry.new : FormatRegistry :=
  [("csv", DataFormatV.csvF csvDefaultFormat),
   ("parquet", DataFormatV.parquetF parquetDefaultConfig)]

/-- `register_format`: a `HashMap::insert`, replacing any prior
binding for the name and otherwise appending a fresh one. -/
def registerFormat : FormatRegistry → String → DataFormatV → FormatRegistry
  | [], name, f => [(name, f)]
  | (k, v) :: rest, name, f =>
    if k = name then (name, f) :: rest else (k, v) :: registerFormat rest name f

/-- `get_format`: map lookup by name. -/
def getFormat : FormatRegistry → String → Option DataFormatV
  | [], _ => none
  | (k, v) :: rest, name => if k = name then some v else getFormat rest name

/-- `get_format_for_extension`: a hard-coded `match` on the extension
that builds fresh built-in codecs and never consults the registry. -/
def getFormatForExtension (extension : String) : Option DataFormatV :=
  if extension = "csv" then some (DataFormatV.csvF csvDefaultFormat)
  else if extension = "parquet" then some (DataFormatV.parquetF parquetDefaultConfig)
  else none

/-! ## Configuration validation (`validation.rs`) -/

/-- The `CsvConfig` settings record. -/
structure CsvConfig where
  batchSize : Nat
  defaultHasHeader : Bool
  schemaSampleSize : Nat
  maxSampleBytes : Nat
  delimiter : Char
  quote : Char
  deriving DecidableEq, Repr

/-- The `DefaultFormatConfig` settings record. -/
structure DefaultFormatConfig where
  batchSize : Nat
  schemaSampleSize : Nat
  deriving DecidableEq, Repr

/-- The `FormatConfig` group. -/
structure FormatConfig where
  csv : CsvConfig
  parquet : ParquetConfig
  default : DefaultFormatConfig
  deriving DecidableEq, Repr

/-- The format-section defaults from `Config::default`. -/
def formatDefaultConfig : FormatConfig :=
  ⟨⟨1024, true, 1000, 1024 * 1024, ',', '"'⟩,
   parquetDefaultConfig,
   ⟨1024, 1000⟩⟩

/-- `validate_formats`: the checks in source order, returning the first
violation as a descriptive error. -/
def validateFormats (config : FormatConfig) : Except String Unit :=
  if config.csv.batchSize = 0 then Except.error ("CSV batch size cannot be zero")
  else if config.csv.schemaSampleSize = 0 then Except.error ("CSV schema sample size cannot be zero")
  else if config.csv.maxSampleBytes = 0 then Except.error ("CSV max sample bytes cannot be zero")
  else if config.parquet.batchSize = 0 then Except.error ("Parquet batch size cannot be zero")
  else if config.parquet.rowGroupSize = 0 then Except.error ("Parquet row group size cannot be zero")
  else if config.parquet.pageSize = 0 then Except.error ("Parquet page size cannot be zero")
  else if config.parquet.dictionaryPageSize = 0 then Except.error ("Parquet dictionary page size cannot be zero")
  else if config.parquet.compression = "snappy" ∨ config.parquet.compression = "gzip" ∨
          config.parquet.compression = "brotli" ∨ config.parquet.compression = "lz4" ∨
          config.parquet.compression = "zstd" ∨ config.parquet.compression = "none" then
    if config.default.batchSize = 0 then Except.error ("Default batch size cannot be zero")
    else if config.default.schemaSampleSize = 0 then Except.error ("Default schema sample size cannot be zero")
    else Except.ok ()
  else Except.error ("Invalid Parquet compression codec: " ++ config.parquet.compression)

/-- The compression names `validate_formats` accepts. -/
def acceptedCompressionNames : List String :=
  ["snappy", "gzip", "brotli", "lz4", "zstd", "none"]

/-- A format configuration whose other fields are valid, isolated on
the compression name. -/
def formatConfigWithCompression (c : String) : FormatConfig :=
  ⟨formatDefaultConfig.csv,
   { parquetDefaultConfig with compression := c },
   formatDefaultConfig.default⟩

/-! ## Storage backends (`storage/local.rs`, `storage/mod.rs`) -/

/-- Rust `str::trim_start_matches('/')`. -/
def trimLeadingSlashes (s : String) : String :=
  String.mk (s.toList.dropWhile (fun c => c = '/'))

/-- `LocalStorage::resolve_path`: join the base directory with the
path after stripping leading separators.  The function is total — no
path is ever rejected. -/
def resolvePath (basePath : String) (path : String) : String :=
  basePath ++ "/" ++ trimLeadingSlashes path

/-- Lexical filesystem normalisation of a path: `..` removes the
previous segment (never past the root), used to express where a
resolved path actually lands. -/
def normalizeSegs (segs : List String) : List String :=
  segs.foldl
    (fun acc seg =>
      if seg = ".." then
        if acc = [] ∨ acc.getLast? = some "" then acc else acc.dropLast
      else acc ++ [seg])
    []

/-- Splitting a character list at separators, accumulating the current
segment in reverse. -/
def splitSegsAux : List Char → List Char → List String
  | [], cur => [String.mk cur.reverse]
  | c :: cs, cur =>
    if c = '/' then String.mk cur.reverse :: splitSegsAux cs []
    else splitSegsAux cs (c :: cur)

/-- Segment view of a path string (split at `/`). -/
def pathSegs (p : String) : List String := splitSegsAux p.toList []

/-- Whether a (normalised) path lies under a base directory. -/
def underBase (basePath : String) (p : String) : Bool :=
  List.isPrefixOf (pathSegs basePath) (normalizeSegs (pathSegs p))

/-- A local filesystem modelled as a map from absolute path strings to
file contents. -/
def FileSys := String → Option (List Nat)

/-- `LocalStorage::get`: resolve, then read the file; only a missing
file errors. -/
def LocalStorage.get (basePath : String) (fs : FileSys) (path : String) : Except String (List Nat) :=
  match fs (resolvePath basePath path) with
  | some data => Except.ok data
  | none => Except.error ("No such file")

/-- `LocalStorage::put`: resolve, create parents, write.  The write
always succeeds and returns the updated filesystem. -/
def LocalStorage.put (basePath : String) (fs : FileSys) (path : String)
    (data : List Nat) : Except String FileSys :=
  Except.ok (fun k => if k = resolvePath basePath path then some data else fs k)

/-- A process environment: variable name to value
(`std::env::var` success view). -/
def EnvMap := String → Option String

/-- The storage backends `from_url` can construct. -/
inductive StorageBackend where
  | localS (basePath : String)
  | s3S (bucket region accessKey secretKey : String)
  | azureS (container account accessKey : String)
  deriving DecidableEq, Repr

/-- `storage::from_url` over an already-parsed URL (scheme, host,
path) and the process environment.  The s3 branch defaults the region
to `us-east-1` and requires access key and secret; the azure branch
requires account and access key; the object-store builders are
modelled as succeeding once their inputs are available. -/
def fromUrl (scheme : String) (host : Option String) (path : String)
    (env : EnvMap) : Except String StorageBackend :=
  if scheme = "file" then
    Except.ok (StorageBackend.localS (trimLeadingSlashes path))
  else if scheme = "s3" then
    match host with
    | none => Except.error ("No bucket specified in S3 URL")
    | some bucket =>
      let region := (env "AWS_REGION").getD "us-east-1"
      match env "AWS_ACCESS_KEY_ID" with
      | none => Except.error ("AWS_ACCESS_KEY_ID environment variable not set")
      | some accessKey =>
        match env "AWS_SECRET_ACCESS_KEY" with
        | none => Except.error ("AWS_SECRET_ACCESS_KEY environment variable not set")
        | some secretKey => Except.ok (StorageBackend.s3S bucket region accessKey secretKey)
  else if scheme = "azure" then
    match host with
    | none => Except.error ("No container specified in Azure URL")
    | some container =>
      match env "AZURE_STORAGE_ACCOUNT" with
      | none => Except.error ("AZURE_STORAGE_ACCOUNT environment variable not set")
      | some account =>
        match env "AZURE_STORAGE_ACCESS_KEY" with
        | none => Except.error ("AZURE_STORAGE_ACCESS_KEY environment variable not set")
        | some accessKey => Except.ok (StorageBackend.azureS container account accessKey)
  else Except.error ("Unsupported storage scheme: " ++ scheme)

/-! ## The two `FormatStream` pollers

`table_provider.rs` and `execution.rs` hold divergent drafts of the
execution stream.  Both are modelled as functions from the list of
items the inner stream yields to the list of items emitted; an error
item ends the consumed stream (the first item error terminates a
stream). -/

/-- A stream item: a decoded batch or an error. -/
abbrev StreamItem := Except String RecordBatch

/-- Whether the configured limit stops the stream at the current
accumulated count (the check at the top of both `poll_next` bodies). -/
def atLimit (limit : Option Nat) (count : Nat) : Bool :=
  match limit with
  | none => false
  | some l => l ≤ count

/-- A pushed-down predicate as the table-provider draft receives it: a
row-level boolean expression (never evaluated by that draft). -/
def RowPred := Row → Option Bool

/-- The `table_provider.rs` `FormatStream::poll_next` loop: the limit
gate checks the accumulated row count first; the filter loop body is
empty (the draft does not evaluate filters); projection is applied;
the count grows by the emitted batch's row count.  Batches are never
truncated. -/
def tpRun (proj : Option (List Nat)) (filters : List RowPred)
    (limit : Option Nat) : Nat → List StreamItem → List StreamItem
  | _, [] => []
  | count, item :: rest =>
    if atLimit limit count then []
    else
      match item with
      | Except.error e => [Except.error e]
      | Except.ok batch =>
        let fb := batch
        match proj with
        | none => Except.ok fb :: tpRun proj filters limit (count + fb.numRows) rest
        | some idx =>
          match projectBatch fb idx with
          | Except.error e => [Except.error e]
          | Except.ok pb => Except.ok pb :: tpRun proj filters limit (count + pb.numRows) rest

/-- A physical filter expression as `execution.rs` evaluates it: a
function from a batch to a boolean mask column (possibly erroring). -/
def BatchPred := RecordBatch → Except String (List (Option Bool))

/-- The sequential filter application of the `execution.rs` draft:
each predicate is evaluated against the already-filtered batch and
applied through `filter_record_batch` (which requires the mask length
to equal the row count). -/
def evalFilters : List BatchPred → RecordBatch → Except String RecordBatch
  | [], b => Except.ok b
  | f :: rest, b =>
    match f b with
    | Except.error e => Except.error e
    | Except.ok mask =>
      if mask.length = b.numRows then
        evalFilters rest (filterBatchRows b mask)
      else
        Except.error ("Filter mask length mismatch")

/-- The `execution.rs` `FormatStream::poll_next` loop: the limit gate
checks the accumulated count first; filters are evaluated and applied;
projection is applied; the count grows by ONE per emitted batch (the
source increments `self.count += 1`).  Batches are never truncated. -/
def execRun (proj : Option (List Nat)) (filters : List BatchPred)
    (limit : Option Nat) : Nat → List StreamItem → List StreamItem
  | _, [] => []
  | count, item :: rest =>
    if atLimit limit count then []
    else
      match item with
      | Except.error e => [Except.error e]
      | Except.ok batch =>
        match evalFilters filters batch with
        | Except.error e => [Except.error e]
        | Except.ok fb =>
          match proj with
          | none => Except.ok fb :: execRun proj filters limit (count + 1) rest
          | some idx =>
            match projectBatch fb idx with
            | Except.error e => [Except.error e]
            | Except.ok pb => Except.ok pb :: execRun proj filters limit (count + 1) rest

/-- Total number of rows carried by a list of stream items. -/
def sumRows (items : List StreamItem) : Nat :=
  items.foldr (fun i n => match i with | Except.ok b => b.numRows + n | Except.error _ => n) 0

/-! ## The table provider (`table_provider.rs`) -/

/-- `FormatTableProvider`: a schema and the decoded batch stream the
provider was constructed over. -/
structure FormatTableProviderM where
  schema : Schema
  data : List StreamItem

/-- The data stream `FormatTableProvider::scan` actually wires into the
plan: `futures::stream::once` around `RecordBatch::new_empty(schema)` —
the provider's own `data` stream is not used. -/
def FormatTableProviderM.scanStream (p : FormatTableProviderM) : List StreamItem :=
  [Except.ok (RecordBatch.newEmpty p.schema)]

/-- The items emitted by executing the plan `scan(projection, filters,
limit)` returns: `FormatExecPlan::execute` again wraps a fresh
once-empty-batch stream in a `FormatStream`. -/
def FormatTableProviderM.scanEmit (p : FormatTableProviderM) (proj : Option (List Nat))
    (filters : List RowPred) (limit : Option Nat) : List StreamItem :=
  tpRun proj filters limit 0 [Except.ok (RecordBatch.newEmpty p.schema)]

/-- The row-set carried by a list of emitted items. -/
def rowSetOf (items : List StreamItem) : List Row :=
  items.foldr (fun i acc => match i with | Except.ok b => b.rows ++ acc | Except.error _ => acc) []

/-- Specification-side row predicate semantics: a row passes when
every pushed filter evaluates to true (a null result drops the row). -/
def specRowPasses (filters : List RowPred) (r : Row) : Bool :=
  filters.all (fun f => f r = some true)

/-- Specification-side projection of one row. -/
def specProjectRow (proj : Option (List Nat)) (r : Row) : Row :=
  match proj with
  | none => r
  | some idx => idx.filterMap (fun i => r.get? i)

/-- Specification-side `project(filter(full_scan(), F), P)`: the rows
of the provider's full data stream, filtered by the pushed predicates
and projected. -/
def specScanRows (p : FormatTableProviderM) (proj : Option (List Nat))
    (filters : List RowPred) : List Row :=
  ((rowSetOf p.data).filter (specRowPasses filters)).map (specProjectRow proj)

/-! ## Streaming encode (`csv_format.rs` / `parquet_format.rs` write paths) -/

/-- `try_collect` over the input stream: the first error aborts the
collection. -/
def collectTry : List StreamItem → Except String (List RecordBatch)
  | [] => Except.ok []
  | Except.error e :: _ => Except.error e
  | Except.ok b :: rest =>
    match collectTry rest with
    | Except.error e => Except.error e
    | Except.ok bs => Except.ok (b :: bs)

/-- How the arrow CSV writer renders one cell value. -/
def renderValue : Value → String
  | Value.vInt i => toString i
  | Value.vStr s => s
  | Value.vBool b => if b then "true" else "false"
  | Value.vNull => ""

/-- The CSV document the writer produces: an optional header record
followed by the data records in batch order. -/
structure CsvDoc where
  header : Option (List String)
  records : List (List String)
  deriving DecidableEq, Repr

/-- The static `CsvFormat::validate_schema`: column count, then
per-column type equality. -/
def csvValidateSchema (schema : Schema) (b : RecordBatch) : Except String Unit :=
  if schema.length ≠ b.schema.length then
    Except.error ("Schema mismatch: column count")
  else if (schema.zip b.schema).all (fun p => decide (p.1.dataType = p.2.dataType)) then
    Except.ok ()
  else
    Except.error ("Schema mismatch: column type")

/-- The per-batch loop of `CsvFormat::write_batches`: validate, then
append the rendered rows. -/
def csvWriteLoop (schema : Schema) : List RecordBatch → Except String (List (List String))
  | [] => Except.ok []
  | b :: rest =>
    match csvValidateSchema schema b with
    | Except.error e => Except.error e
    | Except.ok _ =>
      match csvWriteLoop schema rest with
      | Except.error e => Except.error e
      | Except.ok rs => Except.ok (b.rows.map (fun r => r.map renderValue) ++ rs)

/-- `CsvFormat::write_batches`: collect the stream, reject an empty
batch list, take the first batch's schema, write the header iff the
header flag is set, then the validated batches in order. -/
def CsvFormat.writeBatches (fmt : CsvFormat) (items : List StreamItem) : Except String CsvDoc :=
  match collectTry items with
  | Except.error e => Except.error e
  | Except.ok batches =>
    match batches with
    | [] => Except.error ("No record batches to write")
    | b0 :: _ =>
      let schema := b0.schema
      match csvWriteLoop schema batches with
      | Except.error e => Except.error e
      | Except.ok rs =>
        Except.ok ⟨if fmt.hasHeader then some (schema.map Field.name) else none, rs⟩

/-- The record sequence the emitted CSV bytes contain (what a decoder's
CSV reader sees): the header record, when present, followed by the
data records. -/
def csvSerializedRecords (doc : CsvDoc) : List (List String) :=
  (match doc.header with | some h => [h] | none => []) ++ doc.records

/-- Row count obtained by decoding a CSV record sequence with the
given format: with the header flag set the first record is consumed as
the header, every remaining record becomes one row. -/
def csvDecodedRowCount (fmt : CsvFormat) (records : List (List String)) : Nat :=
  (if fmt.hasHeader then records.tail else records).length

/-- The parquet file the writer produces: footer schema, codec and the
rows of the accumulated row groups. -/
structure ParquetFileM where
  schema : Schema
  codec : CompressionCodec
  rows : List Row
  deriving DecidableEq, Repr

/-- The per-batch loop of `ParquetFormat::write_batches`: the arrow
writer errors when a batch's schema differs from the writer schema. -/
def parquetWriteLoop (schema : Schema) : List RecordBatch → Except String (List Row)
  | [] => Except.ok []
  | b :: rest =>
    if b.schema = schema then
      match parquetWriteLoop schema rest with
      | Except.error e => Except.error e
      | Except.ok rs => Except.ok (b.rows ++ rs)
    else Except.error ("Schema mismatch writing parquet")

/-- `ParquetFormat::write_batches`: collect the stream, reject an
empty batch list, initialise the writer from the first schema and the
configured compression, write all batches, finalize. -/
def ParquetFormat.writeBatches (cfg : ParquetConfig) (items : List StreamItem) :
    Except String ParquetFileM :=
  match collectTry items with
  | Except.error e => Except.error e
  | Except.ok batches =>
    match batches with
    | [] => Except.error ("No record batches to write")
    | b0 :: _ =>
      let schema := b0.schema
      match parquetWriteLoop schema batches with
      | Except.error e => Except.error e
      | Except.ok rs => Except.ok ⟨schema, compressionOf cfg.compression, rs⟩

/-- Row count obtained by decoding a parquet file: the rows stored in
its row groups. -/
def parquetDecodedRowCount (f : ParquetFileM) : Nat := f.rows.length

/-! ## Concrete instances used to settle individual claims -/

/-- The record rows of the scenario-1 input CSV
(`id,name,score` then `1,alice,9.5` and `2,bob,7.0`), as the `csv`
crate reader yields them. -/
def scenario1Rows : List (List String) :=
  [["id", "name", "score"], ["1", "alice", "9.5"], ["2", "bob", "7.0"]]

/-- A one-column int64 schema. -/
def colASchema : Schema := [⟨"a", DataType.int64, true⟩]

/-- A provider over a stream holding one single-row batch. -/
def oneRowProvider : FormatTableProviderM :=
  ⟨colASchema, [Except.ok ⟨colASchema, [[Value.vInt 1]]⟩]⟩

/-- A two-row batch over the one-column schema. -/
def twoRowBatch : RecordBatch :=
  ⟨colASchema, [[Value.vInt 1], [Value.vInt 2]]⟩

/-- An environment holding the s3 access key and secret but no
`AWS_REGION`. -/
def envS3NoRegion : EnvMap := fun n =>
  if n = "AWS_ACCESS_KEY_ID" then some "AK"
  else if n = "AWS_SECRET_ACCESS_KEY" then some "SK"
  else none

/-- The empty local filesystem. -/
def emptyFileSys : FileSys := fun _ => none

/-! ## Helper lemmas -/

/-- Characterisation of the `infer_field_type` scan: the early exit
does not change the final flags, which reduce over the whole value
list. -/
theorem inferLoop_eq (values : List String) : ∀ hi hf ae : Bool,
    inferLoop values hi hf ae =
      (hi && values.all (fun v => v.isEmpty || parseI64ok v),
       hf && values.all (fun v => v.isEmpty || parseF64ok v),
       ae && values.all (fun v => v.isEmpty)) := by
  induction values with
  | nil => intro hi hf ae; simp [inferLoop]
  | cons v rest ih =>
    intro hi hf ae
    cases hv : v.isEmpty with
    | true => simp [inferLoop, hv, ih]
    | false =>
      cases hi <;> cases hf <;> cases hpi : parseI64ok v <;> cases hpf : parseF64ok v <;>
        simp [inferLoop, hv, hpi, hpf, ih]

/-- The filtered non-empty values are empty exactly when every value
is empty. -/
theorem filter_nonempty_isEmpty (values : List String) :
    (values.filter (fun v => !v.isEmpty)).isEmpty = values.all (fun v => v.isEmpty) := by
  induction values with
  | nil => rfl
  | cons v rest ih => cases hv : v.isEmpty <;> simp [List.filter_cons, hv, ih]

/-- Folding a predicate over the non-empty values equals folding its
empty-or form over all values. -/
theorem all_filter_nonempty (p : String → Bool) (values : List String) :
    (values.filter (fun v => !v.isEmpty)).all p =
      values.all (fun v => v.isEmpty || p v) := by
  induction values with
  | nil => rfl
  | cons v rest ih => cases hv : v.isEmpty <;> simp [List.filter_cons, hv, ih]

/-- Once the accumulated count has reached the limit, the
table-provider stream emits nothing more. -/
theorem tpRun_stop (proj : Option (List Nat)) (rfilters : List RowPred) (L : Nat) :
    ∀ (items : List StreamItem) (count : Nat), L ≤ count →
      tpRun proj rfilters (some L) count items = [] := by
  intro items count h
  cases items with
  | nil => rfl
  | cons a t => simp [tpRun, atLimit, h]

/-- The execution-adapter stream emits at most `L - count` further
items once its counter stands at `count`. -/
theorem execRun_length (proj : Option (List Nat)) (filters : List BatchPred) (L : Nat) :
    ∀ (items : List StreamItem) (count : Nat),
      (execRun proj filters (some L) count items).length ≤ L - count := by
  intro items
  induction items with
  | nil => intro count; simp [execRun]
  | cons item rest ih =>
    intro count
    by_cases h : L ≤ count
    · simp [execRun, atLimit, h]
    · have hc : count < L := by omega
      simp only [execRun, atLimit, decide_eq_true_eq, if_neg h]
      cases item with
      | error e => simp; omega
      | ok batch =>
        cases hf : evalFilters filters batch with
        | error e => simp [hf]; omega
        | ok fb =>
          cases proj with
          | none =>
            simp only [hf, List.length_cons]
            have := ih (count + 1); omega
          | some idx =>
            cases hp : projectBatch fb idx with
            | error e => simp [hf, hp]; omega
            | ok pb =>
              simp only [hf, hp, List.length_cons]
              have := ih (count + 1); omega

/-- Every item the table-provider stream emits except possibly the
last is emitted while the accumulated row count is still below the
limit. -/
theorem tpRun_dropLast (proj : Option (List Nat)) (rfilters : List RowPred) (L : Nat) :
    ∀ (items : List StreamItem) (count : Nat), count < L →
      count + sumRows ((tpRun proj rfilters (some L) count items).dropLast) < L := by
  intro items
  induction items with
  | nil => intro count h; simpa [tpRun, sumRows] using h
  | cons item rest ih =>
    intro count h
    have hnot : ¬ L ≤ count := by omega
    simp only [tpRun, atLimit, decide_eq_true_eq, if_neg hnot]
    cases item with
    | error e => simpa [sumRows] using h
    | ok batch =>
      have main : ∀ pb : RecordBatch,
          count + sumRows ((Except.ok pb ::
            tpRun proj rfilters (some L) (count + pb.numRows) rest).dropLast) < L := by
        intro pb
        by_cases h2 : count + pb.numRows < L
        · cases htail : tpRun proj rfilters (some L) (count + pb.numRows) rest with
          | nil => simpa [sumRows] using h
          | cons y ys =>
            have := ih (count + pb.numRows) h2
            rw [htail] at this
            simp only [List.dropLast, sumRows, List.foldr] at this ⊢
            omega
        · have hstop : tpRun proj rfilters (some L) (count + pb.numRows) rest = [] :=
            tpRun_stop proj rfilters L rest (count + pb.numRows) (by omega)
          rw [hstop]
          simpa [sumRows] using h
      cases proj with
      | none => exact main batch
      | some idx =>
        cases hp : projectBatch batch idx with
        | error e => simp only [hp]; simpa [sumRows] using h
        | ok pb => simp only [hp]; exact main pb

/-- The insert-then-lookup law of the registry map: after
`register_format`, a lookup answers with the new binding on the
registered name and is unchanged elsewhere. -/
theorem reg_lookup (name ext : String) (f : DataFormatV) :
    ∀ r : FormatRegistry,
      getFormat (registerFormat r name f) ext =
        (if ext = name then some f else getFormat r ext) := by
  intro r
  induction r with
  | nil =>
    by_cases he : ext = name
    · subst he; simp [registerFormat, getFormat]
    · have hne : ¬ name = ext := fun hh => he hh.symm
      simp [registerFormat, getFormat, he, hne]
  | cons p rest ih =>
    obtain ⟨k, v⟩ := p
    by_cases hk : k = name
    · subst hk
      by_cases he : ext = k
      · subst he; simp [registerFormat, getFormat]
      · have he2 : ¬ k = ext := fun hh => he hh.symm
        simp [registerFormat, getFormat, he, he2]
    · by_cases he : k = ext
      · subst he
        simp [registerFormat, getFormat, hk, getFormat]
      · simp [registerFormat, getFormat, hk, he, ih]

/-- A schema zipped with itself passes the per-column type check. -/
theorem zip_self_types (s : Schema) :
    (s.zip s).all (fun p => decide (p.1.dataType = p.2.dataType)) = true := by
  induction s with
  | nil => rfl
  | cons f rest ih => simp [ih]

/-! ## Claims -/

/-- Claim C1 (code_bug evaluation): for the provider whose data stream
holds one single-row batch, the plan returned by `scan` with no
projection and no filters produces an empty row-set, while
`project(filter(full_scan(), F), P)` yields the one input row — the
`scan`/`execute` pair replaces the provider's data stream with a
single `RecordBatch::new_empty` and never evaluates pushed filters, so
the claimed row-set equality fails. -/
theorem scan_ignores_provider_stream :
    rowSetOf (oneRowProvider.scanEmit none [] none) = [] ∧
    specScanRows oneRowProvider none [] = [[Value.vInt 1]] ∧
    rowSetOf (oneRowProvider.scanEmit none [] none) ≠
      specScanRows oneRowProvider none [] := by decide

/-- Claim C2 (counterexample): with limit 1 and a single two-row input
batch, both `FormatStream` drafts emit 2 rows, so the emitted row
count is not bounded by the configured limit — the crossing batch is
never truncated. -/
theorem limit_not_upper_bound_counterexample :
    sumRows (tpRun none [] (some 1) 0 [Except.ok twoRowBatch]) = 2 ∧
    sumRows (execRun none [] (some 1) 0 [Except.ok twoRowBatch]) = 2 ∧
    ¬ (2 ≤ 1) := by decide

/-- Claim C2 (amended): neither stream truncates a batch; each ends on
the first poll at which its accumulated count has reached the limit L.
The `execution.rs` draft counts batches, so it emits at most L items;
the `table_provider.rs` draft counts rows, so every emitted batch
except possibly the last fits under L rows (the final batch may push
the total past L). -/
theorem limit_stops_stream_after_crossing (proj : Option (List Nat))
    (filters : List BatchPred) (rfilters : List RowPred)
    (items : List StreamItem) (L : Nat) (h : 0 < L) :
    (execRun proj filters (some L) 0 items).length ≤ L ∧
    sumRows ((tpRun proj rfilters (some L) 0 items).dropLast) < L := by
  constructor
  · have := execRun_length proj filters L items 0
    omega
  · have := tpRun_dropLast proj rfilters L items 0 h
    omega

/-- Claim C2 (witness): the amended statement at limit 1 over a single
two-row batch. -/
theorem limit_stops_stream_after_crossing_witness :
    (execRun none [] (some 1) 0 [Except.ok twoRowBatch]).length ≤ 1 ∧
    sumRows ((tpRun none [] (some 1) 0 [Except.ok twoRowBatch]).dropLast) < 1 :=
  limit_stops_stream_after_crossing none [] [] [Except.ok twoRowBatch] 1 (by decide)

/-- Claim C3 (counterexample): registering a codec for extension
`json` leaves `get_format_for_extension "json"` at `none` — the
extension lookup never consults the registry, even though `get_format`
does see the new binding. -/
theorem registered_extension_not_served :
    getFormat (registerFormat FormatRegistry.new "json" (DataFormatV.pluginF 0)) "json"
        = some (DataFormatV.pluginF 0) ∧
    getFormatForExtension "json" = none := by decide

/-- Claim C3 (amended): `register_format(name, f)` makes `get_format`
return `f` for that name, replacing any prior binding and leaving
other names untouched, until a later registration replaces it again;
`get_format_for_extension` however always answers from the fixed
built-in table (`csv`/`parquet` fresh built-ins, otherwise none) and
never reflects registrations. -/
theorem registry_insert_lookup_and_fixed_extension_map
    (r : FormatRegistry) (name ext : String) (f : DataFormatV) :
    getFormat (registerFormat r name f) ext =
      (if ext = name then some f else getFormat r ext) ∧
    getFormatForExtension ext = getFormat FormatRegistry.new ext := by
  constructor
  · exact reg_lookup name ext f r
  · by_cases h1 : ext = "csv"
    · subst h1; simp [getFormatForExtension, FormatRegistry.new, getFormat]
    · by_cases h2 : ext = "parquet"
      · subst h2; simp [getFormatForExtension, FormatRegistry.new, getFormat]
      · have n1 : ¬ ("csv" : String) = ext := fun hh => h1 hh.symm
        have n2 : ¬ ("parquet" : String) = ext := fun hh => h2 hh.symm
        simp [getFormatForExtension, FormatRegistry.new, getFormat, h1, h2, n1, n2]

/-- Claim C4 (code_bug evaluation): `resolve_path` joins the base
directory with `../outside.txt` without rejecting the `..` segment;
the resolved path normalises to a location outside the base directory,
and `put` succeeds there — the repository's own storage test asserts
this write must fail. -/
theorem dotdot_path_escapes_base :
    resolvePath "/tmp/base" "../outside.txt" = "/tmp/base/../outside.txt" ∧
    normalizeSegs (pathSegs (resolvePath "/tmp/base" "../outside.txt"))
      = ["", "tmp", "outside.txt"] ∧
    underBase "/tmp/base" (resolvePath "/tmp/base" "../outside.txt") = false ∧
    (LocalStorage.put "/tmp/base" emptyFileSys "../outside.txt" [1]).isOk = true := by
  decide

/-- Claim C5: `infer_field_type` implements exactly the specified
narrowing — integer when every non-empty sampled value parses as a
signed 64-bit integer, else float when every non-empty value parses as
a 64-bit float, else string, with all-empty columns defaulting to
string — and headerless inputs receive the synthesized names
`column_0 .. column_(n-1)`. -/
theorem csv_type_inference_follows_spec :
    (∀ values : List String, inferFieldType values = specInferFieldType values) ∧
    (∀ (batchSize : Nat) (rows : List (List String)),
      ((CsvFormat.new false batchSize).inferSchema rows).map Field.name =
        (List.range ((CsvFormat.new false batchSize).inferSchema rows).length).map
          (fun i => "column_" ++ toString i)) := by
  constructor
  · intro values
    unfold inferFieldType specInferFieldType
    rw [inferLoop_eq]
    simp only [Bool.true_and]
    rw [← filter_nonempty_isEmpty, ← all_filter_nonempty parseI64ok,
      ← all_filter_nonempty parseF64ok]
  · intro batchSize rows
    simp only [CsvFormat.inferSchema, CsvFormat.new]
    simp only [List.map_map, List.length_map, List.enum_length, Bool.false_and, if_false]
    rw [← List.enum_map_fst, List.map_map]
    rfl

/-- Claim C6 (counterexample): an s3 URL with access key and secret
set but no `AWS_REGION` constructs successfully — the region is
defaulted to `us-east-1`, so it is not a required credential and
construction does not fail when it is missing. -/
theorem s3_missing_region_still_constructs :
    envS3NoRegion "AWS_REGION" = none ∧
    fromUrl "s3" (some "bucket") "k.parquet" envS3NoRegion =
      Except.ok (StorageBackend.s3S "bucket" "us-east-1" "AK" "SK") := ⟨rfl, rfl⟩

/-- Claim C6 (amended): s3 construction succeeds exactly when
`AWS_ACCESS_KEY_ID` and `AWS_SECRET_ACCESS_KEY` are present (the
region defaults to `us-east-1` when absent), azure construction
succeeds exactly when `AZURE_STORAGE_ACCOUNT` and
`AZURE_STORAGE_ACCESS_KEY` are present, and in particular an s3 URL
with no `AWS_ACCESS_KEY_ID` fails construction with a credential
error. -/
theorem remote_credentials_required_set (env : EnvMap) (host path : String) :
    ((fromUrl "s3" (some host) path env).isOk = true ↔
      (env "AWS_ACCESS_KEY_ID").isSome = true ∧
        (env "AWS_SECRET_ACCESS_KEY").isSome = true) ∧
    ((fromUrl "azure" (some host) path env).isOk = true ↔
      (env "AZURE_STORAGE_ACCOUNT").isSome = true ∧
        (env "AZURE_STORAGE_ACCESS_KEY").isSome = true) ∧
    (env "AWS_ACCESS_KEY_ID" = none →
      fromUrl "s3" (some host) path env =
        Except.error ("AWS_ACCESS_KEY_ID environment variable not set")) := by
  cases hA : env "AWS_ACCESS_KEY_ID" <;> cases hS : env "AWS_SECRET_ACCESS_KEY" <;>
    cases hAA : env "AZURE_STORAGE_ACCOUNT" <;> cases hAK : env "AZURE_STORAGE_ACCESS_KEY" <;>
      simp [fromUrl, hA, hS, hAA, hAK, Except.isOk, Except.toBool]

/-- Claim C6 (witness): construction with an entirely empty
environment fails on the missing access key. -/
theorem remote_credentials_required_set_witness :
    fromUrl "s3" (some "bucket") "k.parquet" (fun _ => none) =
      Except.error ("AWS_ACCESS_KEY_ID environment variable not set") :=
  (remote_credentials_required_set (fun _ => none) "bucket" "k.parquet").2.2 rfl

/-- Claim C7 (counterexample): validation rejects the name
`uncompressed` and accepts `none` — the accepted set differs from the
claimed one. -/
theorem uncompressed_rejected_none_accepted :
    validateFormats (formatConfigWithCompression "uncompressed") =
      Except.error ("Invalid Parquet compression codec: uncompressed") ∧
    validateFormats (formatConfigWithCompression "none") = Except.ok () := ⟨rfl, rfl⟩

/-- Claim C7 (amended): with the other fields valid, validation
accepts a parquet compression name iff it lies in the closed set
{snappy, gzip, brotli, lz4, zstd, none}, and any name outside that set
produces the descriptive invalid-codec error. -/
theorem compression_accepted_set (c : String) :
    ((validateFormats (formatConfigWithCompression c)).isOk = true ↔
      c ∈ acceptedCompressionNames) ∧
    (c ∉ acceptedCompressionNames →
      validateFormats (formatConfigWithCompression c) =
        Except.error ("Invalid Parquet compression codec: " ++ c)) := by
  by_cases h : c = "snappy" ∨ c = "gzip" ∨ c = "brotli" ∨ c = "lz4" ∨ c = "zstd" ∨ c = "none"
  · simp [validateFormats, formatConfigWithCompression, parquetDefaultConfig,
      formatDefaultConfig, acceptedCompressionNames, h, Except.isOk, Except.toBool]
  · simp [validateFormats, formatConfigWithCompression, parquetDefaultConfig,
      formatDefaultConfig, acceptedCompressionNames, h, Except.isOk, Except.toBool]

/-- Claim C7 (witness): the name `lzo` lies outside the accepted set
and draws the descriptive error. -/
theorem compression_accepted_set_witness :
    validateFormats (formatConfigWithCompression "lzo") =
      Except.error ("Invalid Parquet compression codec: lzo") :=
  (compression_accepted_set "lzo").2 (by decide)

/-- Claim C8 (counterexample): encoding the empty batch set fails for
both formats with the no-record-batches error, so an empty input does
not round-trip when it decodes to zero batches. -/
theorem empty_batch_set_encode_fails :
    (CsvFormat.new true 1024).writeBatches [] =
      Except.error ("No record batches to write") ∧
    ParquetFormat.writeBatches parquetDefaultConfig [] =
      Except.error ("No record batches to write") := ⟨rfl, rfl⟩

/-- Claim C8 (amended): a non-empty batch set with zero total rows —
here a single 0-row batch over any schema — round-trips in both
formats: encoding succeeds (CSV emits just the optional header,
parquet just the footer schema) and decoding the encoded output yields
0 rows. -/
theorem zero_row_batch_round_trip (s : Schema) :
    (CsvFormat.new true 1024).writeBatches [Except.ok ⟨s, []⟩] =
      Except.ok ⟨some (s.map Field.name), []⟩ ∧
    csvDecodedRowCount (CsvFormat.new true 1024)
      (csvSerializedRecords ⟨some (s.map Field.name), []⟩) = 0 ∧
    ParquetFormat.writeBatches parquetDefaultConfig [Except.ok ⟨s, []⟩] =
      Except.ok ⟨s, CompressionCodec.snappyC, []⟩ ∧
    parquetDecodedRowCount ⟨s, CompressionCodec.snappyC, []⟩ = 0 := by
  refine ⟨?_, rfl, ?_, rfl⟩
  · simp [CsvFormat.writeBatches, collectTry, csvWriteLoop, csvValidateSchema,
      zip_self_types s, CsvFormat.new]
  · simp [ParquetFormat.writeBatches, collectTry, parquetWriteLoop, parquetDefaultConfig,
      compressionOf]

/-- Claim C9 (counterexample): the schema inferred for the scenario-1
CSV is not the claimed one — the code marks every inferred field
nullable, not non-nullable. -/
theorem scenario1_schema_not_nonnullable :
    (CsvFormat.new true 1024).inferSchema scenario1Rows ≠
      [⟨"id", DataType.int64, false⟩, ⟨"name", DataType.utf8, false⟩,
       ⟨"score", DataType.float64, false⟩] := by decide

/-- Claim C9 (amended): the scenario-1 CSV infers exactly the fields
`id` of type int64, `name` of type utf8 and `score` of type float64,
each marked nullable. -/
theorem scenario1_schema_inferred_nullable :
    (CsvFormat.new true 1024).inferSchema scenario1Rows =
      [⟨"id", DataType.int64, true⟩, ⟨"name", DataType.utf8, true⟩,
       ⟨"score", DataType.float64, true⟩] := by decide

/-- Claim C10: a `CsvFormat` built with a declared schema returns that
schema from `infer_schema` for every input sample, without inspecting
the sample at all. -/
theorem declared_schema_short_circuits_inference (s : Schema) (hasHeader : Bool)
    (batchSize : Nat) (rows : List (List String)) :
    (CsvFormat.withSchema s hasHeader batchSize).inferSchema rows = s := rfl

end DistT
